import Mathlib

/-!
Verification of the version history and drift-detection engine of the
style-tracker repository (`temporal_tracker.py`, with read endpoints from
`app.py`), as a shallow embedding.  Python floats are modelled as `ℚ`,
Python `datetime` values as a `DateTime` structure carrying the validity
bounds that the Python `datetime` constructor enforces, dicts as
insertion-ordered association lists, and the persisted JSON record as a
structured value (the JSON text layer round-trips string-keyed records
verbatim, so it is modelled structurally; timestamps, which the source
serializes through `isoformat`/`fromisoformat`, are modelled down to the
character level).
-/

/-- A Python `datetime.datetime` value.  The `valid` field records the bounds
the Python constructor enforces (day bounds relaxed to `≤ 31`, a superset of
the real calendar bounds, which only strengthens theorems over it). -/
structure DateTime where
  year : Nat
  month : Nat
  day : Nat
  hour : Nat
  minute : Nat
  second : Nat
  microsecond : Nat
  valid : 1 ≤ year ∧ year ≤ 9999 ∧ 1 ≤ month ∧ month ≤ 12 ∧ 1 ≤ day ∧ day ≤ 31 ∧
    hour ≤ 23 ∧ minute ≤ 59 ∧ second ≤ 59 ∧ microsecond ≤ 999999

/-- Mixed-radix encoding of a `DateTime`; on valid datetimes it is strictly
monotone for the field-lexicographic comparison Python uses on `datetime`. -/
def DateTime.key (d : DateTime) : Nat :=
  ((((((d.year * 13 + d.month) * 32 + d.day) * 24 + d.hour) * 60 + d.minute) * 60
    + d.second) * 1000000) + d.microsecond

/-- Chronological order on datetimes (Python `datetime` comparison). -/
def DateTime.le (a b : DateTime) : Prop := a.key ≤ b.key

instance : DecidableRel DateTime.le := fun a b => Nat.decLe a.key b.key

/-- A version snapshot (`VersionSnapshot` dataclass). -/
structure VersionSnapshot where
  version_id : String
  timestamp : DateTime
  text : List Char
  authenticity_score : ℚ
  style_features : List (String × ℚ)
  metadata : List (String × String)

/-- Comparison key used by `add_version`'s sort: `key=lambda v: v.timestamp`. -/
def snapLe (a b : VersionSnapshot) : Prop := DateTime.le a.timestamp b.timestamp

instance : DecidableRel snapLe := fun a b =>
  Nat.decLe a.timestamp.key b.timestamp.key

instance : IsTotal VersionSnapshot snapLe :=
  ⟨fun a b => Nat.le_total a.timestamp.key b.timestamp.key⟩

instance : IsTrans VersionSnapshot snapLe :=
  ⟨fun _ _ _ hab hbc => Nat.le_trans hab hbc⟩

/-- The in-memory store: `self.documents`, an insertion-ordered mapping from
document id to version list. -/
abbrev Store : Type := List (String × List VersionSnapshot)

/-- Python `self.documents.get(document_id, [])`: read without inserting. -/
def dictGet (st : Store) (doc : String) : List VersionSnapshot :=
  ((st : List (String × List VersionSnapshot)).lookup doc).getD []

/-- Python dict assignment `self.documents[doc_id] = vs`: replace in place if
the key exists (its position is preserved), else append. -/
def storeSet : Store → String → List VersionSnapshot → Store
  | [], k, v => [(k, v)]
  | (k', v') :: rest, k, v =>
    if k' = k then (k, v) :: rest else (k', v') :: storeSet rest k v

/-- Python `del self.documents[document_id]` (from the delete endpoint). -/
def delete_document (st : Store) (doc : String) : Store :=
  (st : List (String × List VersionSnapshot)).filter (fun p => p.1 ≠ doc)

/-! ### Style feature extraction (`_extract_style_features`) -/

/-- A character matched by the regex class `\w` (ASCII reading). -/
def isWordChar (c : Char) : Bool := c.isAlphanum || c = '_'

/-- Accumulator pass collecting maximal nonempty runs of word characters,
as `re.findall(r'\b\w+\b', ·)` does. -/
def extractWordsAux : List Char → List Char → List (List Char)
  | [], acc => if acc.isEmpty then [] else [acc.reverse]
  | c :: rest, acc =>
    if isWordChar c then extractWordsAux rest (c :: acc)
    else if acc.isEmpty then extractWordsAux rest []
    else acc.reverse :: extractWordsAux rest []

/-- `re.findall(r'\b\w+\b', text.lower())`. -/
def extractWords (text : List Char) : List (List Char) :=
  extractWordsAux (text.map Char.toLower) []

/-- A sentence delimiter from the regex class `[.!?]`. -/
def isSentSep (c : Char) : Bool := c = '.' || c = '!' || c = '?'

/-- Accumulator pass for `re.split(r'[.!?]+', text)`: the boolean flag records
whether we are inside a delimiter run (a run yields a single split). -/
def splitSentsAux : List Char → Bool → List Char → List (List Char)
  | [], _, acc => [acc.reverse]
  | c :: rest, inSep, acc =>
    if isSentSep c then
      if inSep then splitSentsAux rest true acc
      else acc.reverse :: splitSentsAux rest true []
    else splitSentsAux rest false (c :: acc)

/-- `re.split(r'[.!?]+', text)`. -/
def splitSents (text : List Char) : List (List Char) := splitSentsAux text false []

/-- Python `str.strip()`. -/
def stripChars (l : List Char) : List Char :=
  ((l.dropWhile Char.isWhitespace).reverse.dropWhile Char.isWhitespace).reverse

/-- A character matched by the regex class `[,.!?;:-]` in `punctuation_ratio`. -/
def isPunct (c : Char) : Bool :=
  c = ',' || c = '.' || c = '!' || c = '?' || c = ';' || c = ':' || c = '-'

/-- `TemporalTracker._extract_style_features`. -/
def extract_style_features (text : List Char) : List (String × ℚ) :=
  let words := extractWords text
  let sentences := ((splitSents text).map stripChars).filter (fun s => ¬ s.isEmpty)
  let word_count := words.length
  let sentence_count := sentences.length
  let char_count := text.length
  [("avg_sentence_length",
      if 0 < sentence_count then (word_count : ℚ) / (sentence_count : ℚ) else 0),
   ("avg_word_length",
      if 0 < word_count then
        ((words.map (fun w => (w.length : ℚ))).sum) / (word_count : ℚ) else 0),
   ("lexical_diversity",
      if 0 < word_count then (words.dedup.length : ℚ) / (word_count : ℚ) else 0),
   ("punctuation_ratio",
      if 0 < char_count then
        ((text.filter isPunct).length : ℚ) / (char_count : ℚ) else 0),
   ("caps_ratio",
      if 0 < char_count then
        ((text.filter Char.isUpper).length : ℚ) / (char_count : ℚ) else 0),
   ("word_count", (word_count : ℚ)),
   ("sentence_count", (sentence_count : ℚ))]

/-! ### Authenticity scoring (`_analyze_authenticity`) -/

/-- The external classification capability: absent (`client is None`), or a
function returning a parsed numeric score, or a parse/transport failure. -/
def analyze_authenticity (client : Option (List Char → Option ℚ)) (text : List Char) : ℚ :=
  match client with
  | none => 7/10
  | some f =>
    match f text with
    | some score => max 0 (min 1 score)
    | none => 1/2

/-! ### `add_version` -/

/-- `TemporalTracker.add_version`: score and extract features, assign
`{document_id}_v{len+1}`, append, and re-sort the document's list (a stable
ascending sort by timestamp, which is what `list.sort(key=...)` performs).
Returns the updated store together with the returned snapshot. -/
def add_version (client : Option (List Char → Option ℚ)) (st : Store) (doc : String)
    (text : List Char) (timestamp : DateTime) (metadata : List (String × String)) :
    Store × VersionSnapshot :=
  let authenticity_score := analyze_authenticity client text
  let style_features := extract_style_features text
  let cur := dictGet st doc
  let version_id := doc ++ "_v" ++ toString (cur.length + 1)
  let snapshot : VersionSnapshot :=
    ⟨version_id, timestamp, text, authenticity_score, style_features, metadata⟩
  (storeSet st doc (List.insertionSort snapLe (cur ++ [snapshot])), snapshot)

/-- A sequence of `add_version` calls on one document, collecting the returned
snapshots in call order. -/
def add_many (client : Option (List Char → Option ℚ)) (st : Store) (doc : String) :
    List (List Char × DateTime × List (String × String)) → Store × List VersionSnapshot
  | [] => (st, [])
  | (t, ts, m) :: rest =>
    let p := add_version client st doc t ts m
    let q := add_many client p.1 doc rest
    (q.1, p.2 :: q.2)

/-! ### Drift detection (`detect_style_drift`) -/

/-- The per-pair feature drift mapping: iterate `prev`'s feature keys in
order, and for each key also present in `curr` record
`|curr[key] - prev[key]|`. -/
def featureDrifts (prevF currF : List (String × ℚ)) : List (String × ℚ) :=
  prevF.filterMap (fun kv => (currF.lookup kv.1).map (fun cv => (kv.1, |cv - kv.2|)))

/-- `total_drift` for one consecutive pair:
`(drift_score + auth_drift) / 2` where `drift_score` is the mean of the
feature drifts (0 when no shared keys). -/
def pairTotalDrift (prev curr : VersionSnapshot) : ℚ :=
  let fd := featureDrifts prev.style_features curr.style_features
  let drift_score : ℚ :=
    if fd.isEmpty then 0 else ((fd.map Prod.snd).sum) / (fd.length : ℚ)
  let auth_drift := |curr.authenticity_score - prev.authenticity_score|
  (drift_score + auth_drift) / 2

/-- A recorded drift point (the dict appended to `drift_points`). -/
structure DriftPoint where
  from_version : String
  to_version : String
  timestamp : DateTime
  drift_score : ℚ
  auth_drift : ℚ
  feature_drifts : List (String × ℚ)

/-- The drift point recorded for the pair `(prev, curr)`. -/
def mkDriftPoint (prev curr : VersionSnapshot) : DriftPoint :=
  ⟨prev.version_id, curr.version_id, curr.timestamp, pairTotalDrift prev curr,
    |curr.authenticity_score - prev.authenticity_score|,
    featureDrifts prev.style_features curr.style_features⟩

/-- The report dict returned by `detect_style_drift`.  `Option` fields model
key presence: the early `< 2` return carries only `drift_detected`,
`drift_score` and `details`. -/
structure DriftReport where
  drift_detected : Bool
  drift_score : ℚ
  details : Option String
  drift_points : Option (List DriftPoint)
  total_versions : Option Nat
  significant_changes : Option Nat

/-- The drift computation over an ordered version list: the loop
`for i in range(1, len(versions))` visits exactly the consecutive pairs
`versions.zip versions.tail`. -/
def detectStyleDriftList (versions : List VersionSnapshot) : DriftReport :=
  if versions.length < 2 then
    ⟨false, 0, some "Insufficient versions", none, none, none⟩
  else
    let pairs := versions.zip versions.tail
    let drifts := pairs.map (fun pc => pairTotalDrift pc.1 pc.2)
    let points := pairs.filterMap (fun pc =>
      if pairTotalDrift pc.1 pc.2 > 0.15 then some (mkDriftPoint pc.1 pc.2) else none)
    ⟨decide (0 < points.length),
      (if drifts.isEmpty then 0 else drifts.sum / (drifts.length : ℚ)),
      none, some points, some versions.length, some points.length⟩

/-- `TemporalTracker.detect_style_drift` (the `window_size` parameter is
accepted by the source but never read, so it does not appear). -/
def detect_style_drift (st : Store) (doc : String) : DriftReport :=
  detectStyleDriftList (dictGet st doc)

/-! ### History analysis (`analyze_version_history`) -/

/-- The `authenticity_trend` sub-dict. -/
structure AuthTrend where
  direction : String
  magnitude : ℚ
  scores : List ℚ

/-- The fields of the `analyze_version_history` report that carry the
analytic content settled here (`time_span` and the numpy-based
`feature_evolution` variance block are not needed by any claim). -/
structure HistoryReport where
  document_id : String
  total_versions : Nat
  authenticity_trend : AuthTrend
  drift_analysis : DriftReport

/-- `TemporalTracker.analyze_version_history`; `none` models the
`{"error": "No versions found"}` result. -/
def analyze_version_history (st : Store) (doc : String) : Option HistoryReport :=
  let versions := dictGet st doc
  if versions.isEmpty then none
  else
    let authenticity_scores := versions.map (fun v => v.authenticity_score)
    let trend : String :=
      if 1 < authenticity_scores.length then
        (if authenticity_scores.headD 0 < authenticity_scores.getLastD 0 then
          "increasing" else "decreasing")
      else "stable"
    let trend_magnitude : ℚ :=
      if 1 < authenticity_scores.length then
        |authenticity_scores.getLastD 0 - authenticity_scores.headD 0|
      else 0
    some ⟨doc, versions.length, ⟨trend, trend_magnitude, authenticity_scores⟩,
      detectStyleDriftList versions⟩

/-! ### Persistence (`_save_history` / `_load_history`)

The JSON text layer is the identity on the string-keyed records the source
writes, so the persisted record is modelled structurally; the timestamp
field, which the source converts through `datetime.isoformat` and
`datetime.fromisoformat`, is modelled down to its character encoding. -/

/-- Zero-padded fixed-width decimal rendering (`%04d` etc. inside
`isoformat`). -/
def padNum : Nat → Nat → List Char
  | 0, _ => []
  | w+1, n => Char.ofNat (48 + n / 10 ^ w % 10) :: padNum w n

/-- Consume exactly `w` decimal digits, accumulating their value. -/
def parseFixedNat : Nat → Nat → List Char → Option (Nat × List Char)
  | 0, acc, s => some (acc, s)
  | _+1, _, [] => none
  | w+1, acc, c :: s =>
    if c.isDigit then parseFixedNat w (acc * 10 + (c.toNat - 48)) s else none

/-- Consume one expected literal character. -/
def expectChar (c : Char) : List Char → Option (List Char)
  | x :: rest => if x = c then some rest else none
  | [] => none

/-- `datetime.isoformat()`: `YYYY-MM-DDTHH:MM:SS`, extended with
`.ffffff` exactly when the microsecond field is nonzero. -/
def isoformat (d : DateTime) : List Char :=
  padNum 4 d.year ++ ('-' :: (padNum 2 d.month ++ ('-' :: (padNum 2 d.day ++
    ('T' :: (padNum 2 d.hour ++ (':' :: (padNum 2 d.minute ++ (':' :: (padNum 2 d.second ++
    (if d.microsecond = 0 then [] else '.' :: padNum 6 d.microsecond)))))))))))

/-- The optional fractional-seconds part of the ISO format: a `'.'` followed
by six digits, or nothing (microsecond 0). -/
def parseMicro (s : List Char) : Option (Nat × List Char) :=
  match s with
  | '.' :: rest => parseFixedNat 6 0 rest
  | other => some (0, other)

/-- The `datetime(...)` constructor's range validation (Python raises
`ValueError` out of range, modelled as `none`). -/
def mkDatetime (y mo d h mi sec u : Nat) : Option DateTime :=
  if hv : 1 ≤ y ∧ y ≤ 9999 ∧ 1 ≤ mo ∧ mo ≤ 12 ∧ 1 ≤ d ∧ d ≤ 31 ∧
      h ≤ 23 ∧ mi ≤ 59 ∧ sec ≤ 59 ∧ u ≤ 999999 then
    some ⟨y, mo, d, h, mi, sec, u, hv⟩
  else none

/-- `datetime.fromisoformat`: parse the format written by `isoformat` and
construct the datetime (failures of either step raise `ValueError` in Python,
modelled as `none`). -/
def fromisoformat (s : List Char) : Option DateTime :=
  (parseFixedNat 4 0 s).bind (fun p1 =>
  (expectChar '-' p1.2).bind (fun s1 =>
  (parseFixedNat 2 0 s1).bind (fun p2 =>
  (expectChar '-' p2.2).bind (fun s2 =>
  (parseFixedNat 2 0 s2).bind (fun p3 =>
  (expectChar 'T' p3.2).bind (fun s3 =>
  (parseFixedNat 2 0 s3).bind (fun p4 =>
  (expectChar ':' p4.2).bind (fun s4 =>
  (parseFixedNat 2 0 s4).bind (fun p5 =>
  (expectChar ':' p5.2).bind (fun s5 =>
  (parseFixedNat 2 0 s5).bind (fun p6 =>
  (parseMicro p6.2).bind (fun p7 =>
  if p7.2.isEmpty then mkDatetime p1.1 p2.1 p3.1 p4.1 p5.1 p6.1 p7.1
  else none))))))))))))

/-- One snapshot entry of the persisted record, as written by
`_save_history`. -/
structure SnapRecord where
  version_id : String
  timestamp : List Char
  text : List Char
  authenticity_score : ℚ
  style_features : List (String × ℚ)
  metadata : List (String × String)

/-- The per-snapshot dict built inside `_save_history`. -/
def snapToRecord (v : VersionSnapshot) : SnapRecord :=
  ⟨v.version_id, isoformat v.timestamp, v.text, v.authenticity_score,
    v.style_features, v.metadata⟩

/-- `_save_history`'s serialized record: the whole store, per document. -/
def save_history (st : Store) : List (String × List SnapRecord) :=
  (st : List (String × List VersionSnapshot)).map
    (fun p => (p.1, p.2.map snapToRecord))

/-- Reconstruction of one `VersionSnapshot` inside `_load_history`;
fails (raising `ValueError` in Python) when the stored timestamp does not
parse. -/
def recordToSnap (r : SnapRecord) : Option VersionSnapshot :=
  (fromisoformat r.timestamp).map (fun ts =>
    ⟨r.version_id, ts, r.text, r.authenticity_score, r.style_features, r.metadata⟩)

/-- The list comprehension reconstructing one document's snapshots: built in
order, and the first failing entry aborts the whole comprehension. -/
def reconstructAll : List SnapRecord → Option (List VersionSnapshot)
  | [] => some []
  | r :: rs =>
    match recordToSnap r, reconstructAll rs with
    | some v, some vs => some (v :: vs)
    | _, _ => none

/-- The `for doc_id, versions_data in data.items()` loop of `_load_history`
run against a fresh store: each document is assigned only when every one of
its snapshots reconstructs; the first failure raises out of the loop (caught
by the surrounding handler), keeping the documents already assigned and
dropping the rest. -/
def loadDocs : List (String × List SnapRecord) → Store
  | [] => []
  | (d, rs) :: rest =>
    match reconstructAll rs with
    | some snaps => (d, snaps) :: loadDocs rest
    | none => []

/-- `_load_history` on a fresh store: `none` models a missing history file or
a record `json.load` cannot parse (both leave the store empty). -/
def load_history : Option (List (String × List SnapRecord)) → Store
  | none => []
  | some data => loadDocs data

/-- A filesystem action performed by the persistence layer. -/
inductive FsOp where
  | write (path : String) (content : List (String × List SnapRecord))
  | rename (src dst : String)

/-- `self.storage_path / "history.json"` with the default storage path. -/
def historyFilePath : String := "./temporal_data/history.json"

/-- The filesystem actions `_save_history` performs:
`open(file_path, 'w')` followed by `json.dump` is a single in-place write of
the serialized record to the final path. -/
def saveHistoryOps (st : Store) : List FsOp :=
  [FsOp.write historyFilePath (save_history st)]

/-! ### State effect of the read operations (for the frame claim)

Each read accesses `self.documents` only through `.get(document_id, [])`
(`temporal_tracker.py` lines 149 and 200, `app.py` line 110), never through
the `defaultdict` item access that would insert an entry, and performs no
assignment; its effect on the store is captured explicitly. -/

/-- Method-call view of `detect_style_drift`: result plus resulting store. -/
def detectStyleDriftCall (st : Store) (doc : String) : DriftReport × Store :=
  (detectStyleDriftList (dictGet st doc), st)

/-- Method-call view of `analyze_version_history`. -/
def analyzeVersionHistoryCall (st : Store) (doc : String) :
    Option HistoryReport × Store :=
  (analyze_version_history st doc, st)

/-- Method-call view of the `get_versions` endpoint (`app.py`). -/
def getVersionsCall (st : Store) (doc : String) :
    List VersionSnapshot × Store :=
  (dictGet st doc, st)

/-! ### Concrete inputs used by witnesses and counterexamples -/

/-- 2023-01-01 00:00:00. -/
def dtA : DateTime := ⟨2023, 1, 1, 0, 0, 0, 0, by omega⟩

/-- 2023-01-02 00:00:00. -/
def dtB : DateTime := ⟨2023, 1, 2, 0, 0, 0, 0, by omega⟩

/-- 2023-01-03 00:00:00. -/
def dtC : DateTime := ⟨2023, 1, 3, 0, 0, 0, 0, by omega⟩

/-- Store obtained by three `add_version` calls supplying timestamps in the
order `dtC`, `dtA`, `dtB`. -/
def c2Store : Store :=
  (add_version none
    (add_version none
      (add_version none [] "doc" [] dtC []).1 "doc" [] dtA []).1 "doc" [] dtB []).1

/-- A snapshot with authenticity score `1/5` (0.2). -/
def w1 : VersionSnapshot := ⟨"d_v1", dtA, [], 1/5, [("f", 1)], []⟩

/-- A snapshot with authenticity score `3/5` (0.6) and the same feature
mapping as `w1`. -/
def w2 : VersionSnapshot := ⟨"d_v2", dtB, [], 3/5, [("f", 1)], []⟩

/-- A snapshot with authenticity score `4/5` (0.8). -/
def c4s1 : VersionSnapshot := ⟨"doc_v1", dtA, [], 4/5, [], []⟩

/-- A snapshot with authenticity score `3/10` (0.3). -/
def c4s2 : VersionSnapshot := ⟨"doc_v2", dtB, [], 3/10, [], []⟩

/-- A document whose two versions carry authenticity scores 0.8 then 0.3. -/
def c4Store : Store := [("doc", [c4s1, c4s2])]

/-- A well-formed persisted snapshot entry. -/
def c9Good : SnapRecord :=
  ⟨"a_v1", "2023-01-01T00:00:00".toList, "hi".toList, 7/10, [("word_count", 2)], []⟩

/-- A snapshot entry whose timestamp does not parse: its reconstruction
raises (`none`). -/
def c9Bad : SnapRecord := ⟨"b_v1", "not-a-timestamp".toList, [], 7/10, [], []⟩

/-- The snapshot `c9Good` reconstructs to. -/
def c9GoodSnap : VersionSnapshot :=
  ⟨"a_v1", dtA, "hi".toList, 7/10, [("word_count", 2)], []⟩

/-! ## Theorems -/

/-- `DateTime.le` agrees with the field-lexicographic comparison that Python
uses on `datetime` values. -/
theorem DateTime.le_iff_lex (a b : DateTime) :
    DateTime.le a b ↔
      (a.year < b.year ∨ (a.year = b.year ∧
        (a.month < b.month ∨ (a.month = b.month ∧
          (a.day < b.day ∨ (a.day = b.day ∧
            (a.hour < b.hour ∨ (a.hour = b.hour ∧
              (a.minute < b.minute ∨ (a.minute = b.minute ∧
                (a.second < b.second ∨ (a.second = b.second ∧
                  a.microsecond ≤ b.microsecond)))))))))))) := by
  obtain ⟨y, mo, d, h, mi, s, u, hv⟩ := a
  obtain ⟨y', mo', d', h', mi', s', u', hv'⟩ := b
  simp only [DateTime.le, DateTime.key] at *
  omega

/-- A dict assignment makes the assigned value the one subsequently read. -/
theorem lookup_storeSet (st : Store) (k : String) (v : List VersionSnapshot) :
    (storeSet st k v).lookup k = some v := by
  induction st with
  | nil => simp [storeSet, List.lookup]
  | cons p t ih =>
    obtain ⟨k', v'⟩ := p
    by_cases h : k' = k
    · subst h
      simp [storeSet, List.lookup]
    · rw [storeSet, if_neg h, List.lookup,
        show (k == k') = false from beq_eq_false_iff_ne.mpr (fun hh => h hh.symm)]
      exact ih

/-- Reading a document back after `storeSet`. -/
theorem dictGet_storeSet (st : Store) (k : String) (v : List VersionSnapshot) :
    dictGet (storeSet st k v) k = v := by
  simp [dictGet, lookup_storeSet]

/-- After `add_version`, the stored document list is the stable ascending
re-sort of the previous list with the new snapshot appended. -/
theorem dictGet_add_version (client : Option (List Char → Option ℚ)) (st : Store)
    (doc : String) (text : List Char) (ts : DateTime) (m : List (String × String)) :
    dictGet (add_version client st doc text ts m).1 doc =
      List.insertionSort snapLe
        (dictGet st doc ++ [(add_version client st doc text ts m).2]) := by
  simp [add_version, dictGet_storeSet]

/-- `add_version` grows the document's version list by exactly one. -/
theorem length_dictGet_add_version (client : Option (List Char → Option ℚ)) (st : Store)
    (doc : String) (text : List Char) (ts : DateTime) (m : List (String × String)) :
    (dictGet (add_version client st doc text ts m).1 doc).length =
      (dictGet st doc).length + 1 := by
  rw [dictGet_add_version, List.length_insertionSort, List.length_append]
  rfl

/-- The character `Char.ofNat (48 + d)` for a digit value `d < 10` is a
decimal digit with the expected code point. -/
theorem digitChar_spec (d : Nat) (h : d < 10) :
    (Char.ofNat (48 + d)).isDigit = true ∧ (Char.ofNat (48 + d)).toNat = 48 + d := by
  interval_cases d <;> exact ⟨rfl, rfl⟩

/-- Parsing a zero-padded fixed-width number recovers its value modulo the
width's radix power. -/
theorem parseFixedNat_padNum (w : Nat) :
    ∀ acc n : Nat, ∀ rest : List Char,
      parseFixedNat w acc (padNum w n ++ rest) =
        some (acc * 10 ^ w + n % 10 ^ w, rest) := by
  induction w with
  | zero =>
    intro acc n rest
    simp [padNum, parseFixedNat, Nat.mod_one]
  | succ w ih =>
    intro acc n rest
    have hd : n / 10 ^ w % 10 < 10 := Nat.mod_lt _ (by norm_num)
    obtain ⟨hdig, hval⟩ := digitChar_spec _ hd
    rw [padNum, List.cons_append, parseFixedNat, if_pos hdig, hval,
      Nat.add_sub_cancel_left, ih]
    have key : n % (10 ^ w * 10) = 10 ^ w * (n / 10 ^ w % 10) + n % 10 ^ w := by
      conv_lhs => rw [← Nat.div_add_mod (n % (10 ^ w * 10)) (10 ^ w)]
      rw [Nat.mod_mul_right_div_self, Nat.mod_mod_of_dvd _ (dvd_mul_right _ _)]
    rw [pow_succ, key]
    ring_nf

/-- `expectChar` consumes the expected literal character. -/
theorem expectChar_cons_self (c : Char) (rest : List Char) :
    expectChar c (c :: rest) = some rest := by
  simp [expectChar]

set_option maxHeartbeats 1000000 in
/-- `fromisoformat` inverts `isoformat` on every (valid) datetime. -/
theorem fromisoformat_isoformat (d : DateTime) :
    fromisoformat (isoformat d) = some d := by
  obtain ⟨y, mo, dy, h, mi, s, u, hv⟩ := d
  obtain ⟨hy1, hy2, hmo1, hmo2, hd1, hd2, hh, hmi, hs, hu⟩ := hv
  have e1 : y % 10 ^ 4 = y := Nat.mod_eq_of_lt (by omega)
  have e2 : mo % 10 ^ 2 = mo := Nat.mod_eq_of_lt (by omega)
  have e3 : dy % 10 ^ 2 = dy := Nat.mod_eq_of_lt (by omega)
  have e4 : h % 10 ^ 2 = h := Nat.mod_eq_of_lt (by omega)
  have e5 : mi % 10 ^ 2 = mi := Nat.mod_eq_of_lt (by omega)
  have e6 : s % 10 ^ 2 = s := Nat.mod_eq_of_lt (by omega)
  have e7 : u % 10 ^ 6 = u := Nat.mod_eq_of_lt (by omega)
  by_cases hu0 : u = 0
  · subst hu0
    simp only [isoformat, fromisoformat, if_pos rfl, parseFixedNat_padNum,
      Option.some_bind, expectChar_cons_self, parseMicro, List.isEmpty_nil,
      if_true, zero_mul, zero_add, e1, e2, e3, e4, e5, e6]
    rw [mkDatetime, dif_pos (by omega)]
  · simp only [isoformat, if_neg hu0]
    rw [show padNum 6 u = padNum 6 u ++ ([] : List Char) from (List.append_nil _).symm]
    simp only [fromisoformat, parseFixedNat_padNum, Option.some_bind,
      expectChar_cons_self, parseMicro]
    simp only [parseFixedNat_padNum, Option.some_bind, List.isEmpty_nil, if_true,
      zero_mul, zero_add, e1, e2, e3, e4, e5, e6, e7]
    rw [mkDatetime, dif_pos (by omega)]

/-- One snapshot survives the save/load field mapping unchanged. -/
theorem recordToSnap_snapToRecord (v : VersionSnapshot) :
    recordToSnap (snapToRecord v) = some v := by
  obtain ⟨id, ts, tx, sc, sf, md⟩ := v
  simp [recordToSnap, snapToRecord, fromisoformat_isoformat]

/-- A document's serialized snapshot list fully reconstructs. -/
theorem reconstructAll_map (vs : List VersionSnapshot) :
    reconstructAll (vs.map snapToRecord) = some vs := by
  induction vs with
  | nil => rfl
  | cons v t ih => simp [reconstructAll, recordToSnap_snapToRecord, ih]

/-- C5: serializing a store with `_save_history` and loading the serialized
record with `_load_history` into a fresh store reproduces, for every
document, the identical ordered snapshot sequence — same version ids,
timestamps, scores, style features and metadata. -/
theorem C5_save_load_roundtrip :
    ∀ st : Store, load_history (some (save_history st)) = st := by
  intro st
  induction st with
  | nil => rfl
  | cons p t ih =>
    obtain ⟨d, vs⟩ := p
    simp only [load_history, save_history, List.map_cons] at ih ⊢
    simp only [loadDocs, reconstructAll_map]
    rw [ih]

/-- C9 (amended): `_load_history` never raises; an unparseable record (or a
missing file) yields the empty store, while a snapshot-level reconstruction
failure keeps exactly the documents fully processed before the failing
document and drops it and all later ones. -/
theorem C9_load_partial_prefix :
    load_history none = [] ∧
    ∀ data : List (String × List SnapRecord),
      load_history (some data) =
        (data.takeWhile (fun p => (reconstructAll p.2).isSome)).map
          (fun p => (p.1, (reconstructAll p.2).getD [])) := by
  refine ⟨rfl, ?_⟩
  intro data
  induction data with
  | nil => rfl
  | cons p t ih =>
    obtain ⟨d, rs⟩ := p
    simp only [load_history] at ih ⊢
    cases h : reconstructAll rs with
    | none => simp [loadDocs, h, List.takeWhile_cons]
    | some vs =>
      simp [loadDocs, h, List.takeWhile_cons]
      exact ih

/-- C9 (counterexample): a persisted record in which the second document's
snapshot fails reconstruction does not leave the store empty — the first
document is loaded. -/
theorem C9_partial_load_cex :
    recordToSnap c9Bad = none ∧
    load_history (some [("doc_a", [c9Good]), ("doc_b", [c9Bad])]) =
      [("doc_a", [c9GoodSnap])] ∧
    ([("doc_a", [c9GoodSnap])] : Store) ≠ ([] : Store) :=
  ⟨rfl, rfl, by simp⟩

/-- C6: with fewer than two stored versions (unknown ids included),
`detect_style_drift` returns the early report — no drift, score 0, an
explanatory note, and none of the pairwise computation's fields. -/
theorem C6_insufficient_versions (st : Store) (doc : String)
    (h : (dictGet st doc).length < 2) :
    detect_style_drift st doc =
      ⟨false, 0, some "Insufficient versions", none, none, none⟩ := by
  simp only [detect_style_drift, detectStyleDriftList, if_pos h]

/-- C6 (witness): the early report at a store with no versions at all. -/
theorem C6_insufficient_witness :
    (dictGet ([] : Store) "missing").length < 2 ∧
    detect_style_drift ([] : Store) "missing" =
      ⟨false, 0, some "Insufficient versions", none, none, none⟩ :=
  ⟨by decide, C6_insufficient_versions [] "missing" (by decide)⟩

/-- C7: feature extraction on the empty string yields every feature 0 with
no division error, and `add_version` on empty text still succeeds at the
store layer — it returns a snapshot with all-zero features and grows the
document by one version. -/
theorem C7_empty_text_zero_features :
    extract_style_features [] =
      [("avg_sentence_length", 0), ("avg_word_length", 0), ("lexical_diversity", 0),
       ("punctuation_ratio", 0), ("caps_ratio", 0), ("word_count", 0),
       ("sentence_count", 0)] ∧
    ∀ (client : Option (List Char → Option ℚ)) (st : Store) (doc : String)
      (ts : DateTime) (m : List (String × String)),
      (add_version client st doc [] ts m).2.style_features =
        [("avg_sentence_length", 0), ("avg_word_length", 0), ("lexical_diversity", 0),
         ("punctuation_ratio", 0), ("caps_ratio", 0), ("word_count", 0),
         ("sentence_count", 0)] ∧
      (dictGet (add_version client st doc [] ts m).1 doc).length =
        (dictGet st doc).length + 1 :=
  ⟨rfl, fun client st doc ts m => ⟨rfl, length_dictGet_add_version client st doc [] ts m⟩⟩

/-- C8: the filesystem trace of `_save_history` is a single in-place write of
the serialized record to the final history path — there is no write to a
temporary location followed by a rename. -/
theorem C8_save_is_direct_write :
    ∀ st : Store,
      saveHistoryOps st = [FsOp.write historyFilePath (save_history st)] ∧
      (∀ op ∈ saveHistoryOps st, ∀ src dst, op ≠ FsOp.rename src dst) ∧
      ¬ ∃ tmp c, tmp ≠ historyFilePath ∧
          saveHistoryOps st = [FsOp.write tmp c, FsOp.rename tmp historyFilePath] := by
  intro st
  refine ⟨rfl, ?_, ?_⟩
  · intro op hop src dst
    simp only [saveHistoryOps, List.mem_singleton] at hop
    subst hop
    exact fun hcontra => FsOp.noConfusion hcontra
  · rintro ⟨tmp, c, hne, heq⟩
    have hlen := congrArg List.length heq
    simp [saveHistoryOps] at hlen

/-- C10: the read operations `detect_style_drift`, `analyze_version_history`
and the `get_versions` endpoint leave the document mapping unchanged — they
create no entry for an unknown id and modify no version list. -/
theorem C10_reads_leave_store_unchanged :
    ∀ (st : Store) (doc : String),
      (detectStyleDriftCall st doc).2 = st ∧
      (analyzeVersionHistoryCall st doc).2 = st ∧
      (getVersionsCall st doc).2 = st ∧
      (detectStyleDriftCall st doc).2.lookup doc = st.lookup doc ∧
      (analyzeVersionHistoryCall st doc).2.lookup doc = st.lookup doc ∧
      (getVersionsCall st doc).2.lookup doc = st.lookup doc :=
  fun _ _ => ⟨rfl, rfl, rfl, rfl, rfl, rfl⟩

/-- C2: after every `add_version` call the document's stored version list is
sorted ascending by timestamp; in particular inserting timestamps in the
order `dtC`, `dtA`, `dtB` yields the list ordered `dtA`, `dtB`, `dtC`. -/
theorem C2_versions_sorted_by_timestamp :
    (∀ (client : Option (List Char → Option ℚ)) (st : Store) (doc : String)
        (text : List Char) (ts : DateTime) (m : List (String × String)),
      List.Sorted snapLe (dictGet (add_version client st doc text ts m).1 doc)) ∧
    (dictGet c2Store "doc").map (fun v => v.timestamp) = [dtA, dtB, dtC] := by
  constructor
  · intro client st doc text ts m
    rw [dictGet_add_version]
    exact List.sorted_insertionSort snapLe _
  · rfl

/-- The snapshots returned by a run of `add_version` calls carry version ids
numbered consecutively from the document's starting version count. -/
theorem add_many_version_ids (client : Option (List Char → Option ℚ)) (doc : String) :
    ∀ (inps : List (List Char × DateTime × List (String × String))) (st : Store),
      (add_many client st doc inps).2.map (fun v => v.version_id) =
        (List.range inps.length).map
          (fun i => doc ++ "_v" ++ toString ((dictGet st doc).length + i + 1)) := by
  intro inps
  induction inps with
  | nil => intro st; rfl
  | cons x rest ih =>
    intro st
    obtain ⟨t, ts, m⟩ := x
    simp only [add_many, List.map_cons, List.length_cons, List.range_succ_eq_map,
      List.map_map]
    refine congrArg₂ List.cons ?_ ?_
    · show (add_version client st doc t ts m).2.version_id =
        doc ++ "_v" ++ toString ((dictGet st doc).length + 0 + 1)
      rw [Nat.add_zero]
      rfl
    · rw [ih, length_dictGet_add_version]
      refine List.map_congr_left ?_
      intro i _
      show doc ++ "_v" ++ toString ((dictGet st doc).length + 1 + i + 1) =
        doc ++ "_v" ++ toString ((dictGet st doc).length + (i + 1) + 1)
      rw [show (dictGet st doc).length + 1 + i + 1 =
        (dictGet st doc).length + (i + 1) + 1 by omega]

/-- C3: on a document with no prior versions, the n-th `add_version` call
(1-based, in insertion order, whatever the supplied timestamps) returns a
snapshot whose version id is exactly the document id followed by `_v{n}`. -/
theorem C3_version_ids_by_insertion_count (client : Option (List Char → Option ℚ))
    (st : Store) (doc : String)
    (inps : List (List Char × DateTime × List (String × String)))
    (h : dictGet st doc = []) :
    (add_many client st doc inps).2.map (fun v => v.version_id) =
      (List.range inps.length).map (fun i => doc ++ "_v" ++ toString (i + 1)) := by
  rw [add_many_version_ids, h]
  simp

/-- C3 (witness): two calls on a fresh document with out-of-order timestamps
return ids `d_v1` then `d_v2`. -/
theorem C3_version_ids_witness :
    dictGet ([] : Store) "d" = [] ∧
    (add_many none ([] : Store) "d" [([], dtC, []), ([], dtA, [])]).2.map
        (fun v => v.version_id) =
      (List.range 2).map (fun i => "d" ++ "_v" ++ toString (i + 1)) :=
  ⟨rfl, C3_version_ids_by_insertion_count none [] "d" [([], dtC, []), ([], dtA, [])] rfl⟩

/-- In a feature dict (no duplicate keys), looking up the key of a stored
pair returns its stored value. -/
theorem lookup_self_of_nodup :
    ∀ (f : List (String × ℚ)) (k : String) (v : ℚ),
      (k, v) ∈ f → (f.map Prod.fst).Nodup → f.lookup k = some v := by
  intro f
  induction f with
  | nil => intro k v hm; cases hm
  | cons p t ih =>
    intro k v hm hnd
    obtain ⟨k', v'⟩ := p
    simp only [List.map_cons, List.nodup_cons] at hnd
    rcases List.mem_cons.mp hm with heq | hmt
    · obtain ⟨rfl, rfl⟩ := Prod.mk.injEq .. ▸ heq
      simp [List.lookup]
    · have hk : k ≠ k' := by
        rintro rfl
        exact hnd.1 (List.mem_map.mpr ⟨(k, v), hmt, rfl⟩)
      rw [List.lookup, show (k == k') = false from beq_eq_false_iff_ne.mpr hk]
      exact ih k v hmt hnd.2

/-- When every key of `f` looks up to its own value in `g`, the per-pair
feature drifts are all zero. -/
theorem featureDrifts_of_lookup :
    ∀ f g : List (String × ℚ),
      (∀ kv ∈ f, g.lookup kv.1 = some kv.2) →
      featureDrifts f g = f.map (fun kv => (kv.1, 0)) := by
  intro f g h
  induction f with
  | nil => rfl
  | cons kv t ih =>
    simp only [featureDrifts, List.filterMap_cons] at ih ⊢
    rw [h kv (List.mem_cons_self kv t)]
    simp [ih (fun kv hm => h kv (List.mem_cons_of_mem _ hm))]

/-- When two snapshots carry the same (duplicate-free) feature mapping, the
pairwise total drift is half the authenticity-score gap. -/
theorem pairTotalDrift_eq_half_auth (v1 v2 : VersionSnapshot)
    (hf : v1.style_features = v2.style_features)
    (hnd : (v1.style_features.map Prod.fst).Nodup) :
    pairTotalDrift v1 v2 = |v2.authenticity_score - v1.authenticity_score| / 2 := by
  have hl : ∀ kv ∈ v1.style_features, v2.style_features.lookup kv.1 = some kv.2 := by
    intro kv hm
    rw [← hf]
    exact lookup_self_of_nodup _ kv.1 kv.2 hm hnd
  have hsum : ((v1.style_features.map
      (fun kv => (kv.1, (0 : ℚ)))).map Prod.snd).sum = 0 := by
    rw [List.map_map]
    refine List.sum_eq_zero ?_
    intro x hx
    obtain ⟨kv, hkv, hx⟩ := List.mem_map.mp hx
    subst hx
    rfl
  simp only [pairTotalDrift, featureDrifts_of_lookup _ _ hl, hsum]
  by_cases he : v1.style_features = []
  · simp [he]
  · rw [if_neg (by simp [List.isEmpty_eq_false, he])]
    rw [zero_div, zero_add]

/-- C1: for a document with at least two versions, `detect_style_drift`
computes each pair's `total_drift` as the mean of the shared-key feature
drifts averaged with the authenticity drift, records a drift point exactly
when `total_drift > 0.15`, aggregates `drift_score` as the mean over all
consecutive pairs with `drift_detected` iff some point was recorded; and for
two versions with identical feature mappings whose authenticity scores
differ by more than 0.3, the drift point is recorded with those versions'
ids. -/
theorem C1_drift_formula (versions : List VersionSnapshot)
    (h2 : 2 ≤ versions.length)
    (hnd : ∀ v ∈ versions, (v.style_features.map Prod.fst).Nodup) :
    ((detectStyleDriftList versions).drift_score =
        ((versions.zip versions.tail).map (fun pc => pairTotalDrift pc.1 pc.2)).sum /
          (((versions.zip versions.tail).length : ℚ))) ∧
    ((detectStyleDriftList versions).drift_points =
        some ((versions.zip versions.tail).filterMap (fun pc =>
          if pairTotalDrift pc.1 pc.2 > 0.15 then some (mkDriftPoint pc.1 pc.2)
          else none))) ∧
    ((detectStyleDriftList versions).drift_detected = true ↔
        ∃ pc ∈ versions.zip versions.tail, pairTotalDrift pc.1 pc.2 > 0.15) ∧
    (∀ prev curr : VersionSnapshot, (prev, curr) ∈ versions.zip versions.tail →
        pairTotalDrift prev curr =
          ((if (featureDrifts prev.style_features curr.style_features).isEmpty then 0
            else ((featureDrifts prev.style_features
                curr.style_features).map Prod.snd).sum /
              ((featureDrifts prev.style_features curr.style_features).length : ℚ)) +
            |curr.authenticity_score - prev.authenticity_score|) / 2) ∧
    (∀ v1 v2 : VersionSnapshot, versions = [v1, v2] →
        v1.style_features = v2.style_features →
        |v2.authenticity_score - v1.authenticity_score| > 0.3 →
        pairTotalDrift v1 v2 > 0.15 ∧
          (detectStyleDriftList versions).drift_points = some [mkDriftPoint v1 v2] ∧
          (mkDriftPoint v1 v2).from_version = v1.version_id ∧
          (mkDriftPoint v1 v2).to_version = v2.version_id) := by
  have hnlt : ¬ versions.length < 2 := by omega
  have hzlen : (versions.zip versions.tail).length = versions.length - 1 := by
    rw [List.length_zip, List.length_tail]
    omega
  have hmapne : ((versions.zip versions.tail).map
      (fun pc => pairTotalDrift pc.1 pc.2)).isEmpty = false := by
    rw [List.isEmpty_eq_false, ne_eq, List.map_eq_nil_iff]
    intro hnil
    rw [hnil] at hzlen
    simp at hzlen
    omega
  refine ⟨?_, ?_, ?_, ?_, ?_⟩
  · simp only [detectStyleDriftList, if_neg hnlt, hmapne, Bool.false_eq_true,
      if_false, List.length_map]
  · simp only [detectStyleDriftList, if_neg hnlt]
  · simp only [detectStyleDriftList, if_neg hnlt]
    rw [decide_eq_true_iff, List.length_pos, ne_eq, List.filterMap_eq_nil_iff]
    push_neg
    constructor
    · rintro ⟨pc, hpc, hne⟩
      refine ⟨pc, hpc, ?_⟩
      by_contra hcond
      exact hne (if_neg hcond)
    · rintro ⟨pc, hpc, hcond⟩
      exact ⟨pc, hpc, by rw [if_pos hcond]; exact Option.some_ne_none _⟩
  · intro prev curr _
    rfl
  · intro v1 v2 hveq hfeq hauth
    subst hveq
    have hnd1 : (v1.style_features.map Prod.fst).Nodup := hnd v1 (by simp)
    have htot : pairTotalDrift v1 v2 =
        |v2.authenticity_score - v1.authenticity_score| / 2 :=
      pairTotalDrift_eq_half_auth v1 v2 hfeq hnd1
    have hgt : pairTotalDrift v1 v2 > 0.15 := by
      rw [htot]
      linarith
    refine ⟨hgt, ?_, rfl, rfl⟩
    simp only [detectStyleDriftList]
    rw [if_neg (by simp)]
    simp [List.zip, if_pos hgt]

/-- C1 (witness): two versions with the same feature mapping and
authenticity scores 0.2 and 0.6 cross the drift threshold and produce the
drift point with matching version ids. -/
theorem C1_drift_witness :
    (2 ≤ ([w1, w2] : List VersionSnapshot).length) ∧
    (∀ v ∈ ([w1, w2] : List VersionSnapshot), (v.style_features.map Prod.fst).Nodup) ∧
    (pairTotalDrift w1 w2 > 0.15 ∧
      (detectStyleDriftList [w1, w2]).drift_points = some [mkDriftPoint w1 w2] ∧
      (mkDriftPoint w1 w2).from_version = w1.version_id ∧
      (mkDriftPoint w1 w2).to_version = w2.version_id) := by
  have h2 : 2 ≤ ([w1, w2] : List VersionSnapshot).length := by simp
  have hnd : ∀ v ∈ ([w1, w2] : List VersionSnapshot),
      (v.style_features.map Prod.fst).Nodup := by
    intro v hv
    rcases List.mem_cons.mp hv with rfl | hv
    · simp [w1]
    · rcases List.mem_cons.mp hv with rfl | hv
      · simp [w2]
      · cases hv
  refine ⟨h2, hnd, (C1_drift_formula [w1, w2] h2 hnd).2.2.2.2 w1 w2 rfl rfl ?_⟩
  rw [show w2.authenticity_score - w1.authenticity_score = (2/5 : ℚ) by
    norm_num [w1, w2]]
  rw [abs_of_nonneg (by norm_num : (0 : ℚ) ≤ 2/5)]
  norm_num

/-- C4: with at least one version, `analyze_version_history` reports the
authenticity trend as "increasing" exactly when the last score strictly
exceeds the first and "decreasing" otherwise (ties included), with magnitude
the absolute first-to-last difference; a single version reports "stable"
with magnitude 0; and scores 0.8 then 0.3 report "decreasing" with
magnitude 0.5. -/
theorem C4_authenticity_trend (st : Store) (doc : String)
    (h : dictGet st doc ≠ []) :
    ((analyze_version_history st doc).map (fun r => r.authenticity_trend.direction) =
      some (if 1 < ((dictGet st doc).map (fun v => v.authenticity_score)).length then
        (if ((dictGet st doc).map (fun v => v.authenticity_score)).headD 0 <
            ((dictGet st doc).map (fun v => v.authenticity_score)).getLastD 0 then
          "increasing" else "decreasing")
        else "stable")) ∧
    ((analyze_version_history st doc).map (fun r => r.authenticity_trend.magnitude) =
      some (if 1 < ((dictGet st doc).map (fun v => v.authenticity_score)).length then
        |((dictGet st doc).map (fun v => v.authenticity_score)).getLastD 0 -
          ((dictGet st doc).map (fun v => v.authenticity_score)).headD 0|
        else 0)) ∧
    (1 < (dictGet st doc).length →
      ((dictGet st doc).map (fun v => v.authenticity_score)).getLastD 0 =
        ((dictGet st doc).map (fun v => v.authenticity_score)).headD 0 →
      (analyze_version_history st doc).map (fun r => r.authenticity_trend.direction) =
        some "decreasing") ∧
    ((dictGet st doc).length = 1 →
      (analyze_version_history st doc).map (fun r => r.authenticity_trend.direction) =
          some "stable" ∧
      (analyze_version_history st doc).map (fun r => r.authenticity_trend.magnitude) =
          some 0) ∧
    ((analyze_version_history c4Store "doc").map
        (fun r => r.authenticity_trend.direction) = some "decreasing" ∧
      (analyze_version_history c4Store "doc").map
        (fun r => r.authenticity_trend.magnitude) = some (1/2)) := by
  have hne : (dictGet st doc).isEmpty = false := List.isEmpty_eq_false.mpr h
  refine ⟨?_, ?_, ?_, ?_, ?_, ?_⟩
  · simp only [analyze_version_history, hne, Bool.false_eq_true, if_false,
      Option.map_some']
  · simp only [analyze_version_history, hne, Bool.false_eq_true, if_false,
      Option.map_some']
  · intro hlen htie
    simp only [analyze_version_history, hne, Bool.false_eq_true, if_false,
      Option.map_some', Option.some.injEq]
    rw [if_pos (by rw [List.length_map]; exact hlen), htie]
    simp
  · intro hlen1
    have hnot : ¬ 1 < ((dictGet st doc).map (fun v => v.authenticity_score)).length := by
      rw [List.length_map, hlen1]
      omega
    constructor <;>
      simp only [analyze_version_history, hne, Bool.false_eq_true, if_false,
        Option.map_some', Option.some.injEq, if_neg hnot]
  · rw [show analyze_version_history c4Store "doc" =
      some ⟨"doc", 2,
        ⟨if (4/5 : ℚ) < 3/10 then "increasing" else "decreasing",
          |(3/10 : ℚ) - 4/5|, [4/5, 3/10]⟩,
        detectStyleDriftList [c4s1, c4s2]⟩ from rfl]
    simp only [Option.map_some', Option.some.injEq]
    norm_num
  · rw [show analyze_version_history c4Store "doc" =
      some ⟨"doc", 2,
        ⟨if (4/5 : ℚ) < 3/10 then "increasing" else "decreasing",
          |(3/10 : ℚ) - 4/5|, [4/5, 3/10]⟩,
        detectStyleDriftList [c4s1, c4s2]⟩ from rfl]
    simp only [Option.map_some', Option.some.injEq]
    rw [show (3/10 : ℚ) - 4/5 = -(1/2) by norm_num, abs_neg,
      abs_of_nonneg (by norm_num : (0 : ℚ) ≤ 1/2)]

/-- C4 (witness): the trend report at the two-version document with scores
0.8 then 0.3. -/
theorem C4_trend_witness :
    dictGet c4Store "doc" ≠ [] ∧
    ((analyze_version_history c4Store "doc").map
        (fun r => r.authenticity_trend.direction) = some "decreasing" ∧
      (analyze_version_history c4Store "doc").map
        (fun r => r.authenticity_trend.magnitude) = some (1/2)) := by
  have h : dictGet c4Store "doc" ≠ [] := by
    rw [show dictGet c4Store "doc" = [c4s1, c4s2] from rfl]
    exact List.cons_ne_nil _ _
  exact ⟨h, (C4_authenticity_trend c4Store "doc" h).2.2.2.2⟩
